import Mathlib

/-!
Verification of feedReader.py, a basic RSS feed reader.

This file is a shallow embedding of the program into Lean: the PubTime class
becomes a six-field structure ordered lexicographically (mirroring
datetime.datetime comparison), Item and Feed become structures, and the
Controller methods (views, checkpoint handling, URL-list normalization, feed
ingestion) become pure functions.  Fallible code (Python code that can raise
an uncaught exception) is modelled with Option, where none stands for the
raised exception.  File and network I/O are factored out: functions take the
file contents or the parsed feed documents as explicit arguments.  The HTML
tag-stripping regex and the title regex are external library collaborators
and are passed as function parameters.
-/

namespace FeedReader

/-- The PubTime class: a point in time kept as six integer fields
(year, month, day, hour, minute, second).  The class also stores a derived
datetime.datetime used for comparison; comparison of valid datetimes is
lexicographic on the six fields, which is how it is modelled here. -/
structure PubTime where
  year : Nat
  month : Nat
  day : Nat
  hour : Nat
  min : Nat
  sec : Nat
  deriving DecidableEq

/-- The dummy time 1000-01-01 00:00:00 used by the program as the
"unknown" sentinel. -/
def PubTime.sentinel : PubTime := ⟨1000, 1, 1, 0, 0, 0⟩

/-- PubTime.__cmp__ compares the underlying datetime objects; for valid
datetimes that is lexicographic comparison of the six fields.  This is the
less-or-equal relation of that comparison. -/
def PubTime.le (a b : PubTime) : Prop :=
  a.year < b.year ∨ a.year = b.year ∧
    (a.month < b.month ∨ a.month = b.month ∧
      (a.day < b.day ∨ a.day = b.day ∧
        (a.hour < b.hour ∨ a.hour = b.hour ∧
          (a.min < b.min ∨ a.min = b.min ∧ a.sec ≤ b.sec))))

instance (a b : PubTime) : Decidable (a.le b) := by
  unfold PubTime.le
  infer_instance

/-- Leap-year rule used by datetime.datetime. -/
def isLeapYear (y : Nat) : Bool := y % 4 == 0 && (y % 100 != 0 || y % 400 == 0)

/-- Days in a month, as validated by datetime.datetime. -/
def daysInMonth (y m : Nat) : Nat :=
  if m = 2 then (if isLeapYear y then 29 else 28)
  else if m = 4 ∨ m = 6 ∨ m = 9 ∨ m = 11 then 30 else 31

/-- The validity check performed by the datetime.datetime constructor
(which the PubTime constructor invokes on its field tuple). -/
def PubTime.validB (t : PubTime) : Bool :=
  1 ≤ t.year && t.year ≤ 9999 && 1 ≤ t.month && t.month ≤ 12 && 1 ≤ t.day &&
    t.day ≤ daysInMonth t.year t.month && t.hour ≤ 23 && t.min ≤ 59 && t.sec ≤ 59

/-- Constructing a PubTime from the six ints produced by int(); the
underlying datetime.datetime constructor raises on a negative field and on
an invalid calendar date, modelled as none. -/
def mkPubTime (y mo d h mi s : Int) : Option PubTime :=
  if 0 ≤ y ∧ 0 ≤ mo ∧ 0 ≤ d ∧ 0 ≤ h ∧ 0 ≤ mi ∧ 0 ≤ s then
    if PubTime.validB ⟨y.toNat, mo.toNat, d.toNat, h.toNat, mi.toNat, s.toNat⟩ then
      some ⟨y.toNat, mo.toNat, d.toNat, h.toNat, mi.toNat, s.toNat⟩
    else none
  else none

/-- One decimal digit as a character, used to model the zero-padded decimal
fields of datetime.isoformat. -/
def digitChar (d : Nat) : Char := Char.ofNat (48 + d)

/-- Fixed-width decimal rendering of a natural number, zero-padded on the
left; datetime.isoformat renders the year with width 4 and every other field
with width 2. -/
def renderNat : Nat → Nat → List Char
  | 0, _ => []
  | w + 1, n => renderNat w (n / 10) ++ [digitChar (n % 10)]

/-- Numeric value of a decimal digit character. -/
def charVal (c : Char) : Nat := c.toNat - 48

/-- Whether a character is a decimal digit. -/
def isDigitChar (c : Char) : Bool := 48 ≤ c.toNat && c.toNat ≤ 57

/-- Value of a decimal digit string, most significant digit first. -/
def parseVal (l : List Char) : Nat := l.foldl (fun a c => a * 10 + charVal c) 0

/-- The whitespace set of Python str.strip and of the stripping that int()
performs on its argument. -/
def isPySpace (c : Char) : Bool :=
  c == ' ' || c == '\t' || c == '\n' || c == '\r' || c == '\x0b' || c == '\x0c'

/-- Python whitespace stripping on a character list: drop leading and
trailing whitespace. -/
def stripCharsList (l : List Char) : List Char :=
  ((l.dropWhile isPySpace).reverse.dropWhile isPySpace).reverse

/-- The digits core of Python int(): a nonempty all-digit string has the
value of its decimal digits; anything else raises ValueError, modelled
none. -/
def parseDigitsOpt (l : List Char) : Option Nat :=
  if l ≠ [] ∧ l.all isDigitChar then some (parseVal l) else none

/-- Python int() applied to a string: surrounding whitespace is stripped,
one optional leading + or - sign is accepted, and the remainder must be one
or more decimal digits; every other shape raises ValueError, modelled
none. -/
def parsePyInt (l : List Char) : Option Int :=
  match stripCharsList l with
  | [] => none
  | c :: rest =>
    if c = '+' then (parseDigitsOpt rest).map Int.ofNat
    else if c = '-' then (parseDigitsOpt rest).map (fun n => -(Int.ofNat n))
    else (parseDigitsOpt (c :: rest)).map Int.ofNat

/-- Python str.split with an explicit one-character separator: splits at
every occurrence of the separator, keeping empty groups. -/
def splitOnChar (sep : Char) : List Char → List (List Char)
  | [] => [[]]
  | c :: cs =>
    let r := splitOnChar sep cs
    if c = sep then [] :: r else (c :: r.headD []) :: r.tail

/-- PubTime.__str__: datetime.isoformat with a space separator, producing
"YYYY-MM-DD HH:MM:SS" with zero-padded fields, as a character list. -/
def renderTime (t : PubTime) : List Char :=
  (renderNat 4 t.year ++ '-' :: (renderNat 2 t.month ++ '-' :: renderNat 2 t.day)) ++
    ' ' :: (renderNat 2 t.hour ++ ':' :: (renderNat 2 t.min ++ ':' :: renderNat 2 t.sec))

/-- PubTime.__str__ as a String. -/
def pubTimeStr (t : PubTime) : String := ⟨renderTime t⟩

/-- The tuple unpacking of year, month, day (and hour, minute, second) in
Controller.timeStringToPubTime: exactly three groups are expected from each
of the two split calls; int() (with its whitespace stripping and sign
handling, parsePyInt) is applied to each group and the PubTime constructor
validates the result.  Any other shape raises, modelled none. -/
def parseGroups : List (List Char) → List (List Char) → Option PubTime
  | [y, mo, da], [h, mi, se] => do
    let yv ← parsePyInt y
    let mov ← parsePyInt mo
    let dav ← parsePyInt da
    let hv ← parsePyInt h
    let miv ← parsePyInt mi
    let sev ← parsePyInt se
    mkPubTime yv mov dav hv miv sev
  | _, _ => none

/-- The date/time halves of Controller.timeStringToPubTime: the date half is
split on hyphens and the time half on colons. -/
def parseDateTimeChars (d t : List Char) : Option PubTime :=
  parseGroups (splitOnChar '-' d) (splitOnChar ':' t)

/-- The first split of Controller.timeStringToPubTime: the string is split
on a space into exactly a date half and a time half. -/
def parseTimeParts : List (List Char) → Option PubTime
  | [d, t] => parseDateTimeChars d t
  | _ => none

/-- Controller.timeStringToPubTime on the underlying character list. -/
def parseTimeChars (l : List Char) : Option PubTime :=
  parseTimeParts (splitOnChar ' ' l)

/-- Controller.timeStringToPubTime.  A raised Python exception (malformed
string or invalid date) is modelled as none. -/
def timeStringToPubTime (s : String) : Option PubTime := parseTimeChars s.data

/-- The Item class: a single story.  Fields are initialized to empty
strings, the dummy time, and descOn False, then populated from the raw
entry. -/
structure Item where
  title : String
  url : String
  pubDate : PubTime
  content : String
  descOn : Bool
  deriving DecidableEq

/-- A raw feedparser entry: the optional capability set used by
Item.populate.  The two parsed time fields are valid struct_time values,
carried here as their first six fields. -/
structure RawEntry where
  title? : Option String
  link? : Option String
  summary? : Option String
  publishedParsed? : Option PubTime
  updatedParsed? : Option PubTime

/-- Item.__init__ followed by Item.populate.  The strip parameter is the
external tag-and-entity-stripping regex pass (Item.stripTags); it is applied
to the title and summary when present.  Every field keeps its default when
its source key is absent; publishedParsed is preferred over updatedParsed
for the pubDate. -/
def Item.populate (strip : String → String) (e : RawEntry) : Item :=
  { title := match e.title? with
      | some t => strip t
      | none => ""
    url := match e.link? with
      | some l => l
      | none => ""
    content := match e.summary? with
      | some s => strip s
      | none => ""
    pubDate := match e.publishedParsed? with
      | some p => p
      | none =>
        match e.updatedParsed? with
        | some u => u
        | none => PubTime.sentinel
    descOn := false }

/-- Concatenation of a list of strings, in order. -/
def concatStrs : List String → String
  | [] => ""
  | s :: rest => s ++ concatStrs rest

/-- The optional lines of Item.__str__, in order.  The Published line is
emitted when str(year) is not the string "1000" (for a natural-number year
that is exactly year different from 1000); the Link line when the url is
nonempty; the Description line whenever the descOn flag is set. -/
def itemOptLines (it : Item) : List String :=
  (if it.pubDate.year ≠ 1000 then ["Published: " ++ pubTimeStr it.pubDate] else []) ++
    ((if it.url ≠ "" then ["Link: " ++ it.url] else []) ++
      (if it.descOn then ["Description: " ++ it.content] else []))

/-- Item.__str__: the title line, the 22-dash separator, each optional line
preceded by a newline, and a trailing newline. -/
def itemStr (it : Item) : String :=
  it.title ++ "\n----------------------" ++
    concatStrs ((itemOptLines it).map (fun l => "\n" ++ l)) ++ "\n"

/-- The Feed class: a title, an optional feed-level publication time (the
empty-string default is modelled as none), the stored items in insertion
order, and the per-render description flag. -/
structure Feed where
  title : String
  pubDate : Option PubTime
  items : List Item
  descOn : Bool
  deriving DecidableEq

/-- Inside Feed.printFeed each iterated entry has its descOn flag set to
True when the feed's flag is on; the flag is only ever set, never cleared. -/
def flagEntry (b : Bool) (e : Item) : Item := if b then { e with descOn := true } else e

/-- The feed header built by Feed.printFeed: the title line and the
31-character separator line. -/
def feedHeader (f : Feed) : String :=
  "Feed: " ++ f.title ++ "\n===============================\n"

/-- Feed.printFeed: builds a single string starting from the header; for
each of the first numItems stored items (all items when the argument keeps
its -1 default, modelled as none) the entry is flagged and appended exactly
when its pubDate is greater than or equal to sinceDate (whose non-PubTime
default is replaced by the sentinel).  The string is printed once at the
end; this function returns it. -/
def Feed.printFeed (f : Feed) (numItems : Option Nat) (sinceDate : Option PubTime) : String :=
  (f.items.take (numItems.getD f.items.length)).foldl
    (fun s e =>
      if (sinceDate.getD PubTime.sentinel).le (flagEntry f.descOn e).pubDate then
        s ++ (itemStr (flagEntry f.descOn e) ++ "\n")
      else s)
    (feedHeader f)

/-- The sort key of Controller.dateView: entries are compared by their
pubDate through PubTime.__cmp__. -/
def itemLe (a b : Item) : Prop := a.pubDate.le b.pubDate

instance : DecidableRel itemLe := fun a b => by
  unfold itemLe
  infer_instance

instance : IsTotal Item itemLe :=
  ⟨fun a b => by unfold itemLe PubTime.le; omega⟩

instance : IsTrans Item itemLe :=
  ⟨fun a b c h₁ h₂ => by unfold itemLe PubTime.le at *; omega⟩

/-- Controller.dateView: flatten all items of all feeds into a fresh list,
sort it ascending by pubDate with the stable list.sort (modelled by the
stable insertionSort), reverse it in place, and print every entry whose
pubDate is not equal to the sentinel dummy time, in that order.  This
function returns the list of printed entries. -/
def dateViewList (feeds : List Feed) : List Item :=
  (((feeds.flatMap Feed.items).insertionSort itemLe).reverse).filter
    (fun e => decide (e.pubDate ≠ PubTime.sentinel))

/-- Controller.setFeedDescriptionFlag: sets the feed's descOn flag when the
description option is on; otherwise leaves the feed untouched. -/
def setFeedFlag (descOpt : Bool) (f : Feed) : Feed :=
  if descOpt then { f with descOn := true } else f

/-- Controller.setItemDescriptionFlag: sets the item's descOn flag when the
description option is on; otherwise leaves the item untouched. -/
def setItemFlag (descOpt : Bool) (e : Item) : Item :=
  if descOpt then { e with descOn := true } else e

/-- The mutation Feed.printFeed performs on its feed object: each of the
first numItems stored items has its descOn flag set when the feed's flag is
on; the items list and its order are otherwise untouched. -/
def printFeedState (f : Feed) (numItems : Option Nat) : Feed :=
  let n := numItems.getD f.items.length
  { f with items := (f.items.take n).map (flagEntry f.descOn) ++ f.items.drop n }

/-- One requested view pass; the title view carries the external regex
search predicate applied to entry titles. -/
inductive ViewCmd
  | date
  | alpha
  | num (n : Nat)
  | since (y mo d : Nat)
  | newest
  | titleSearch (p : String → Bool)
  | defaultView

/-- The effect of one view pass on the stored feed collection self.feeds.
Controller.getFeeds hands each view a copy of the list (self.feeds[:]), and
the date, alpha and title views sort or collect only fresh temporary lists,
so the stored list and each feed's item order never change; the writes that
reach the shared Feed and Item objects are exactly the descOn flags: the
date view flags every flattened entry, the title view flags the matched
entries, and every per-feed view flags each rendered feed and, through
Feed.printFeed, the items in its printed prefix. -/
def runView (descOpt : Bool) : ViewCmd → List Feed → List Feed
  | .date, feeds =>
    feeds.map (fun f => { f with items := f.items.map (setItemFlag descOpt) })
  | .alpha, feeds => feeds.map (fun f => printFeedState (setFeedFlag descOpt f) none)
  | .num n, feeds => feeds.map (fun f => printFeedState (setFeedFlag descOpt f) (some n))
  | .since _ _ _, feeds => feeds.map (fun f => printFeedState (setFeedFlag descOpt f) none)
  | .newest, feeds => feeds.map (fun f => printFeedState (setFeedFlag descOpt f) none)
  | .titleSearch p, feeds =>
    feeds.map (fun f =>
      { f with items := f.items.map (fun e => if p e.title then setItemFlag descOpt e else e) })
  | .defaultView, feeds => feeds.map (fun f => printFeedState (setFeedFlag descOpt f) none)

/-- Sequential execution of the requested views (Controller.run). -/
def runViews (descOpt : Bool) (cmds : List ViewCmd) (feeds : List Feed) : List Feed :=
  cmds.foldl (fun fs c => runView descOpt c fs) feeds

/-- Forgets every transient descOn flag of a feed and its items. -/
def eraseFlags (f : Feed) : Feed :=
  { f with descOn := false, items := f.items.map (fun e => { e with descOn := false }) }

/-- Controller.setLastSeenTime over the contents of lastSeen.txt (none when
the file does not exist).  On a first run lastSeenTime becomes the sentinel
dummy time; otherwise the file contents go through timeStringToPubTime,
whose raised exception propagates out of setLastSeenTime uncaught (modelled
none).  Both branches then overwrite the file with the current wall-clock
time, which is file I/O outside this model. -/
def setLastSeenTime (content : Option String) : Option PubTime :=
  match content with
  | none => some PubTime.sentinel
  | some s => timeStringToPubTime s

/-- Python str.strip: removes leading and trailing whitespace. -/
def stripStr (s : String) : String := ⟨stripCharsList s.data⟩

/-- Head test of the negative lookahead in the appendHTTP regex: the
character right after the scheme, if any, must not be another slash. -/
def notSlashHead (l : List Char) : Bool :=
  match l with
  | c :: _ => c != '/'
  | [] => true

/-- The regex match of Controller.appendHTTP, pattern http[s]?:// followed
by a negative lookahead for a slash: the url matches when it starts with
https:// or http:// whose next character, if present, is not a slash. -/
def matchScheme (l : List Char) : Bool :=
  if l.take 8 = ("https://" : String).data then notSlashHead (l.drop 8)
  else if l.take 7 = ("http://" : String).data then notSlashHead (l.drop 7)
  else false

/-- Controller.appendHTTP: prefixes http:// unless the regex matches. -/
def appendHTTP (url : String) : String :=
  if matchScheme url.data then url else "http://" ++ url

/-- Controller.getFeedsFromFile over the lines of the feed file exactly as
readlines returns them (each keeping its trailing newline): lines equal to
a lone newline are dropped, the rest are stripped and appendHTTP is applied
to each in order. -/
def getFeedsFromFile (lines : List String) : List String :=
  ((lines.filter (fun l => decide (l ≠ "\n"))).map stripStr).foldl
    (fun acc link => acc ++ [appendHTTP link]) []

/-- The scheme condition as the spec words it: the url already begins with
http:// or https://.  For comparison with the regex of appendHTTP. -/
def startsWithScheme (s : String) : Prop :=
  List.IsPrefix ("http://" : String).data s.data ∨
    List.IsPrefix ("https://" : String).data s.data

/-- The scheme condition actually implemented by the appendHTTP regex: the
scheme prefix must not be followed immediately by a further slash. -/
def goodScheme (s : String) : Prop :=
  (List.IsPrefix ("http://" : String).data s.data ∧ s.data[7]? ≠ some '/') ∨
    (List.IsPrefix ("https://" : String).data s.data ∧ s.data[8]? ≠ some '/')

instance (s : String) : Decidable (goodScheme s) := by
  unfold goodScheme
  infer_instance

/-- The output of feedparser.parse as consumed by Controller.makeFeed:
whether the document was malformed (bozo) with a transport or syntax error
as its bozo_exception, the optional feed title and feed-level updated time,
and the optional entry list. -/
structure ParserData where
  bozo : Bool
  bozoTransportOrSyntax : Bool
  feedTitle? : Option String
  feedUpdatedParsed? : Option PubTime
  entries? : Option (List RawEntry)

/-- Controller.makeFeed: a malformed document whose error is a transport or
syntax error yields the in-band invalid marker Feed("ERROR", "").  Otherwise
the feed title and publication time default to the empty value, and when at
least one of the two is present a Feed is built and every raw entry is
normalized into an Item; when neither is present the marker feed is
returned. -/
def makeFeed (strip : String → String) (pd : ParserData) : Feed :=
  if pd.bozo && pd.bozoTransportOrSyntax then ⟨"ERROR", none, [], false⟩
  else if pd.feedUpdatedParsed?.isSome || pd.feedTitle?.isSome then
    { title := pd.feedTitle?.getD ""
      pubDate := pd.feedUpdatedParsed?
      items := match pd.entries? with
        | some es => es.map (Item.populate strip)
        | none => []
      descOn := false }
  else ⟨"ERROR", none, [], false⟩

/-- The ingestion loop of Controller.run: one makeFeed call per parsed
document, appending to self.feeds exactly the feeds whose title is not the
in-band marker "ERROR". -/
def ingest (strip : String → String) (pds : List ParserData) : List Feed :=
  pds.foldl (fun acc pd =>
    let f := makeFeed strip pd
    if f.title ≠ "ERROR" then acc ++ [f] else acc) []

/-- Controller.sinceView with an explicit --since argument YYYY-MM-DD: each
feed gets its description flag set and is rendered with printFeed at the
midnight PubTime of that date; each printFeed output is printed on its own
line. -/
def sinceViewRun (descOpt : Bool) (feeds : List Feed) (y mo d : Nat) : String :=
  concatStrs (feeds.map (fun f =>
    (setFeedFlag descOpt f).printFeed none (some ⟨y, mo, d, 0, 0, 0⟩) ++ "\n"))

/-- Controller.newestView, a wrapper for sinceView with withLastSeen=True:
identical except that the date is self.lastSeenTime. -/
def newestViewRun (descOpt : Bool) (feeds : List Feed) (lastSeen : PubTime) : String :=
  concatStrs (feeds.map (fun f =>
    (setFeedFlag descOpt f).printFeed none (some lastSeen) ++ "\n"))

end FeedReader

namespace FeedReader

theorem pubLe_refl (a : PubTime) : a.le a := by
  unfold PubTime.le
  omega

theorem pubLe_trans {a b c : PubTime} (h₁ : a.le b) (h₂ : b.le c) : a.le c := by
  unfold PubTime.le at *
  omega

theorem pubLe_total (a b : PubTime) : a.le b ∨ b.le a := by
  unfold PubTime.le
  omega

theorem pubLe_antisymm {a b : PubTime} (h₁ : a.le b) (h₂ : b.le a) : a = b := by
  unfold PubTime.le at *
  cases a
  cases b
  simp only [PubTime.mk.injEq]
  simp only at h₁ h₂
  omega

theorem length_renderNat (w n : Nat) : (renderNat w n).length = w := by
  induction w generalizing n with
  | zero => rfl
  | succ w ih => simp [renderNat, ih]

theorem digitChar_facts : ∀ d, d < 10 →
    (digitChar d).toNat = 48 + d ∧ isDigitChar (digitChar d) = true := by
  decide

theorem mem_renderNat_digit {w n : Nat} {c : Char} (h : c ∈ renderNat w n) :
    isDigitChar c = true := by
  induction w generalizing n with
  | zero => simp [renderNat] at h
  | succ w ih =>
    simp only [renderNat, List.mem_append, List.mem_singleton] at h
    rcases h with h | h
    · exact ih h
    · subst h
      exact (digitChar_facts _ (Nat.mod_lt _ (by omega))).2

theorem parseVal_append_digit (l : List Char) (c : Char) :
    parseVal (l ++ [c]) = parseVal l * 10 + charVal c := by
  simp [parseVal, List.foldl_append]

theorem parseVal_renderNat {w n : Nat} (h : n < 10 ^ w) :
    parseVal (renderNat w n) = n := by
  induction w generalizing n with
  | zero =>
    have : n = 0 := by simpa using h
    subst this
    rfl
  | succ w ih =>
    have hlt : n / 10 < 10 ^ w := by
      rw [Nat.div_lt_iff_lt_mul (by omega)]
      calc n < 10 ^ (w + 1) := h
        _ = 10 ^ w * 10 := by rw [Nat.pow_succ]
    have hd : charVal (digitChar (n % 10)) = n % 10 := by
      have := (digitChar_facts (n % 10) (Nat.mod_lt _ (by omega))).1
      simp [charVal, this]
    rw [renderNat, parseVal_append_digit, ih hlt, hd]
    omega

theorem no_sep_of_renderNat (w n : Nat) (sep : Char)
    (hsep : isDigitChar sep = false) : ∀ c ∈ renderNat w n, c ≠ sep := by
  intro c hc hrfl
  have hd := mem_renderNat_digit hc
  rw [hrfl, hsep] at hd
  simp at hd

theorem digit_not_space {c : Char} (h : isDigitChar c = true) : isPySpace c = false := by
  unfold isPySpace
  simp only [Bool.or_eq_false_iff, beq_eq_false_iff_ne]
  refine ⟨⟨⟨⟨⟨?_, ?_⟩, ?_⟩, ?_⟩, ?_⟩, ?_⟩ <;> (rintro rfl; exact absurd h (by decide))

theorem dropWhile_no_space {l : List Char} (h : ∀ c ∈ l, isPySpace c = false) :
    l.dropWhile isPySpace = l := by
  cases l with
  | nil => rfl
  | cons c cs =>
    rw [List.dropWhile_cons, h c (List.mem_cons_self c cs)]
    simp

theorem stripCharsList_no_space {l : List Char} (h : ∀ c ∈ l, isPySpace c = false) :
    stripCharsList l = l := by
  unfold stripCharsList
  rw [dropWhile_no_space h,
    dropWhile_no_space (fun c hc => h c (List.mem_reverse.mp hc)),
    List.reverse_reverse]

theorem parsePyInt_renderNat {w n : Nat} (hw : 0 < w) (h : n < 10 ^ w) :
    parsePyInt (renderNat w n) = some (Int.ofNat n) := by
  have hne : renderNat w n ≠ [] := by
    intro hc
    have hl := length_renderNat w n
    rw [hc] at hl
    simp at hl
    omega
  have hall : (renderNat w n).all isDigitChar = true := by
    rw [List.all_eq_true]
    intro c hc
    exact mem_renderNat_digit hc
  have hnos : ∀ c ∈ renderNat w n, isPySpace c = false :=
    fun c hc => digit_not_space (mem_renderNat_digit hc)
  unfold parsePyInt
  rw [stripCharsList_no_space hnos]
  cases hr : renderNat w n with
  | nil => exact absurd hr hne
  | cons c rest =>
    have hc : c ∈ renderNat w n := by
      rw [hr]
      exact List.mem_cons_self c rest
    have hplus : c ≠ '+' := no_sep_of_renderNat w n '+' (by decide) c hc
    have hminus : c ≠ '-' := no_sep_of_renderNat w n '-' (by decide) c hc
    show (if c = '+' then (parseDigitsOpt rest).map Int.ofNat
      else if c = '-' then (parseDigitsOpt rest).map (fun m => -(Int.ofNat m))
      else (parseDigitsOpt (c :: rest)).map Int.ofNat) = some (Int.ofNat n)
    rw [if_neg hplus, if_neg hminus, ← hr, parseDigitsOpt, if_pos ⟨hne, hall⟩,
      parseVal_renderNat h]
    rfl

theorem splitOnChar_ne_nil (sep : Char) (l : List Char) : splitOnChar sep l ≠ [] := by
  cases l with
  | nil => simp [splitOnChar]
  | cons c cs => simp only [splitOnChar]; split <;> simp

theorem splitOnChar_no_sep {sep : Char} {l : List Char} (h : ∀ c ∈ l, c ≠ sep) :
    splitOnChar sep l = [l] := by
  induction l with
  | nil => rfl
  | cons c cs ih =>
    have hcs : splitOnChar sep cs = [cs] := ih fun x hx => h x (List.mem_cons_of_mem _ hx)
    simp [splitOnChar, hcs, h c (List.mem_cons_self c cs)]

theorem splitOnChar_append {sep : Char} {xs ys : List Char} (h : ∀ c ∈ xs, c ≠ sep) :
    splitOnChar sep (xs ++ sep :: ys) = xs :: splitOnChar sep ys := by
  induction xs with
  | nil => simp [splitOnChar]
  | cons c cs ih =>
    have hcs := ih fun x hx => h x (List.mem_cons_of_mem _ hx)
    simp [splitOnChar, hcs, h c (List.mem_cons_self c cs)]

/-- Round-trip: converting a valid PubTime to its string form and parsing it
back yields the same PubTime. -/
theorem timeString_roundtrip {t : PubTime} (h : t.validB = true) :
    timeStringToPubTime (pubTimeStr t) = some t := by
  have hv := h
  unfold PubTime.validB at hv
  simp only [Bool.and_eq_true, decide_eq_true_eq] at hv
  obtain ⟨⟨⟨⟨⟨⟨⟨⟨hy1, hy2⟩, hm1⟩, hm2⟩, hd1⟩, hd2⟩, hh⟩, hmi⟩, hs⟩ := hv
  have hday : t.day ≤ 31 := by
    have : daysInMonth t.year t.month ≤ 31 := by
      unfold daysInMonth
      split
      · split <;> omega
      · split <;> omega
    omega
  have hnd : isDigitChar '-' = false := by decide
  have hns : isDigitChar ' ' = false := by decide
  have hnc : isDigitChar ':' = false := by decide
  have hdate : ∀ c ∈ renderNat 4 t.year ++ '-' :: (renderNat 2 t.month ++
      '-' :: renderNat 2 t.day), c ≠ ' ' := by
    rw [List.forall_mem_append, List.forall_mem_cons, List.forall_mem_append,
      List.forall_mem_cons]
    exact ⟨no_sep_of_renderNat _ _ _ hns, by decide, no_sep_of_renderNat _ _ _ hns,
      by decide, no_sep_of_renderNat _ _ _ hns⟩
  have htime : ∀ c ∈ renderNat 2 t.hour ++ ':' :: (renderNat 2 t.min ++
      ':' :: renderNat 2 t.sec), c ≠ ' ' := by
    rw [List.forall_mem_append, List.forall_mem_cons, List.forall_mem_append,
      List.forall_mem_cons]
    exact ⟨no_sep_of_renderNat _ _ _ hns, by decide, no_sep_of_renderNat _ _ _ hns,
      by decide, no_sep_of_renderNat _ _ _ hns⟩
  rw [timeStringToPubTime, pubTimeStr]
  show parseTimeChars (renderTime t) = some t
  rw [renderTime, parseTimeChars, splitOnChar_append hdate, splitOnChar_no_sep htime]
  show parseDateTimeChars _ _ = some t
  rw [parseDateTimeChars,
    splitOnChar_append (no_sep_of_renderNat 4 t.year '-' hnd),
    splitOnChar_append (no_sep_of_renderNat 2 t.month '-' hnd),
    splitOnChar_no_sep (no_sep_of_renderNat 2 t.day '-' hnd),
    splitOnChar_append (no_sep_of_renderNat 2 t.hour ':' hnc),
    splitOnChar_append (no_sep_of_renderNat 2 t.min ':' hnc),
    splitOnChar_no_sep (no_sep_of_renderNat 2 t.sec ':' hnc)]
  show (do
    let yv ← parsePyInt (renderNat 4 t.year)
    let mov ← parsePyInt (renderNat 2 t.month)
    let dav ← parsePyInt (renderNat 2 t.day)
    let hv ← parsePyInt (renderNat 2 t.hour)
    let miv ← parsePyInt (renderNat 2 t.min)
    let sev ← parsePyInt (renderNat 2 t.sec)
    mkPubTime yv mov dav hv miv sev) = some t
  simp only [parsePyInt_renderNat (show 0 < 4 by omega) (show t.year < 10 ^ 4 by omega),
    parsePyInt_renderNat (show 0 < 2 by omega) (show t.month < 10 ^ 2 by omega),
    parsePyInt_renderNat (show 0 < 2 by omega) (show t.day < 10 ^ 2 by omega),
    parsePyInt_renderNat (show 0 < 2 by omega) (show t.hour < 10 ^ 2 by omega),
    parsePyInt_renderNat (show 0 < 2 by omega) (show t.min < 10 ^ 2 by omega),
    parsePyInt_renderNat (show 0 < 2 by omega) (show t.sec < 10 ^ 2 by omega)]
  show mkPubTime (Int.ofNat t.year) (Int.ofNat t.month) (Int.ofNat t.day)
    (Int.ofNat t.hour) (Int.ofNat t.min) (Int.ofNat t.sec) = some t
  rw [mkPubTime, if_pos ⟨Int.ofNat_nonneg _, Int.ofNat_nonneg _, Int.ofNat_nonneg _,
    Int.ofNat_nonneg _, Int.ofNat_nonneg _, Int.ofNat_nonneg _⟩]
  show (if PubTime.validB t = true then some t else none) = some t
  rw [if_pos h]

theorem strAppend_empty (s : String) : s ++ "" = s := by
  apply String.ext
  rw [String.data_append]
  show s.data ++ [] = s.data
  simp

theorem strAppend_assoc (a b c : String) : a ++ b ++ c = a ++ (b ++ c) := by
  apply String.ext
  simp [String.data_append, List.append_assoc]

theorem foldl_render {α : Type} (body : String → α → String) (p : α → Bool)
    (g : α → String) (hbody : ∀ s e, body s e = if p e then s ++ g e else s) :
    ∀ (l : List α) (s : String),
      l.foldl body s = s ++ concatStrs ((l.filter p).map g) := by
  intro l
  induction l with
  | nil => intro s; simp [concatStrs, strAppend_empty]
  | cons a l ih =>
    intro s
    rw [List.foldl_cons, hbody, List.filter_cons]
    by_cases hp : p a = true
    · rw [if_pos hp, if_pos hp, ih, List.map_cons, concatStrs, strAppend_assoc]
    · rw [if_neg hp, if_neg hp, ih]

theorem flagEntry_pubDate (b : Bool) (e : Item) : (flagEntry b e).pubDate = e.pubDate := by
  unfold flagEntry
  split <;> rfl

theorem published_ne_link (a b : String) : ("Published: " ++ a) ≠ ("Link: " ++ b) := by
  intro h
  have h2 := congrArg String.data h
  rw [String.data_append, String.data_append] at h2
  have hP : ("Published: " : String).data = 'P' :: ("ublished: " : String).data := rfl
  have hL : ("Link: " : String).data = 'L' :: ("ink: " : String).data := rfl
  rw [hP, hL] at h2
  simp at h2

theorem published_ne_desc (a b : String) :
    ("Published: " ++ a) ≠ ("Description: " ++ b) := by
  intro h
  have h2 := congrArg String.data h
  rw [String.data_append, String.data_append] at h2
  have hP : ("Published: " : String).data = 'P' :: ("ublished: " : String).data := rfl
  have hD : ("Description: " : String).data = 'D' :: ("escription: " : String).data := rfl
  rw [hP, hD] at h2
  simp at h2

theorem link_ne_desc (a b : String) : ("Link: " ++ a) ≠ ("Description: " ++ b) := by
  intro h
  have h2 := congrArg String.data h
  rw [String.data_append, String.data_append] at h2
  have hL : ("Link: " : String).data = 'L' :: ("ink: " : String).data := rfl
  have hD : ("Description: " : String).data = 'D' :: ("escription: " : String).data := rfl
  rw [hL, hD] at h2
  simp at h2

theorem setFeedFlag_items (b : Bool) (f : Feed) : (setFeedFlag b f).items = f.items := by
  unfold setFeedFlag
  split <;> rfl

theorem printFeed_eq (f : Feed) (numItems : Option Nat) (sinceDate : Option PubTime) :
    f.printFeed numItems sinceDate =
      feedHeader f ++ concatStrs
        ((((f.items.take (numItems.getD f.items.length)).map (flagEntry f.descOn)).filter
          (fun e => decide ((sinceDate.getD PubTime.sentinel).le e.pubDate))).map
            (fun e => itemStr e ++ "\n")) := by
  unfold Feed.printFeed
  rw [foldl_render
    (fun (s : String) (e : Item) =>
      if (sinceDate.getD PubTime.sentinel).le (flagEntry f.descOn e).pubDate then
        s ++ (itemStr (flagEntry f.descOn e) ++ "\n")
      else s)
    (fun e => decide ((sinceDate.getD PubTime.sentinel).le (flagEntry f.descOn e).pubDate))
    (fun e => itemStr (flagEntry f.descOn e) ++ "\n")
    (by
      intro s e
      by_cases h : (sinceDate.getD PubTime.sentinel).le (flagEntry f.descOn e).pubDate
      · simp [h]
      · simp [h])]
  rw [List.filter_map, List.map_map]
  simp only [Function.comp_def]

theorem printFeed_sentinel (f : Feed) (numItems : Option Nat)
    (hall : ∀ e ∈ f.items, PubTime.sentinel.le e.pubDate) :
    f.printFeed numItems (some PubTime.sentinel) =
      feedHeader f ++ concatStrs ((f.items.take (numItems.getD f.items.length)).map
        (fun e => itemStr (flagEntry f.descOn e) ++ "\n")) := by
  rw [printFeed_eq]
  have hfil : (((f.items.take (numItems.getD f.items.length)).map (flagEntry f.descOn)).filter
      (fun e => decide (((some PubTime.sentinel).getD PubTime.sentinel).le e.pubDate))) =
      ((f.items.take (numItems.getD f.items.length)).map (flagEntry f.descOn)) := by
    apply List.filter_eq_self.mpr
    intro e he
    obtain ⟨e₀, he₀, rfl⟩ := List.mem_map.mp he
    rw [flagEntry_pubDate]
    exact decide_eq_true (hall e₀ (List.take_subset _ _ he₀))
  rw [hfil, List.map_map]
  simp only [Function.comp_def]

/-- C2: Feed.printFeed produces the header followed by exactly the stored
items whose index is below the numItems bound and whose pubDate is at
least sinceDate, in stored order with no re-sorting; with the sentinel
sinceDate every item within the bound is included (under the data-model
invariant that no item predates the sentinel), and the header is present
even when no item qualifies. -/
theorem c2_printFeed_bounded_filter (f : Feed) (numItems : Option Nat)
    (sinceDate : Option PubTime) :
    f.printFeed numItems sinceDate =
      feedHeader f ++ concatStrs
        ((((f.items.take (numItems.getD f.items.length)).map (flagEntry f.descOn)).filter
          (fun e => decide ((sinceDate.getD PubTime.sentinel).le e.pubDate))).map
            (fun e => itemStr e ++ "\n")) ∧
    ((∀ e ∈ f.items, PubTime.sentinel.le e.pubDate) →
      f.printFeed numItems (some PubTime.sentinel) =
        feedHeader f ++ concatStrs ((f.items.take (numItems.getD f.items.length)).map
          (fun e => itemStr (flagEntry f.descOn e) ++ "\n"))) :=
  ⟨printFeed_eq f numItems sinceDate, printFeed_sentinel f numItems⟩

/-- C2 witness: a concrete one-item feed rendered with bound 1 and the
sentinel sinceDate. -/
theorem c2_printFeed_bounded_filter_witness :
    Feed.printFeed ⟨"F", none, [⟨"a", "", ⟨2020, 1, 1, 0, 0, 0⟩, "", false⟩], false⟩
        (some 1) (some PubTime.sentinel) =
      feedHeader ⟨"F", none, [⟨"a", "", ⟨2020, 1, 1, 0, 0, 0⟩, "", false⟩], false⟩ ++
        concatStrs ((([⟨"a", "", ⟨2020, 1, 1, 0, 0, 0⟩, "", false⟩] : List Item).take
          ((some 1).getD ([(⟨"a", "", ⟨2020, 1, 1, 0, 0, 0⟩, "", false⟩ : Item)]).length)).map
            (fun e => itemStr (flagEntry false e) ++ "\n")) :=
  (c2_printFeed_bounded_filter
    ⟨"F", none, [⟨"a", "", ⟨2020, 1, 1, 0, 0, 0⟩, "", false⟩], false⟩
    (some 1) (some PubTime.sentinel)).2 (by decide)

/-- C7: on the first-ever run (no checkpoint file) the checkpoint loads as
the sentinel, the newest view then produces the same output as the since
view invoked with the sentinel date 1000-01-01, and (under the data-model
invariant that no item predates the sentinel) every feed renders all of its
items, so every dated item is included. -/
theorem c7_newest_first_run (descOpt : Bool) (feeds : List Feed) :
    setLastSeenTime none = some PubTime.sentinel ∧
    newestViewRun descOpt feeds PubTime.sentinel = sinceViewRun descOpt feeds 1000 1 1 ∧
    ((∀ f ∈ feeds, ∀ e ∈ f.items, PubTime.sentinel.le e.pubDate) →
      newestViewRun descOpt feeds PubTime.sentinel =
        concatStrs (feeds.map (fun f =>
          (feedHeader (setFeedFlag descOpt f) ++
            concatStrs (f.items.map (fun e =>
              itemStr (flagEntry (setFeedFlag descOpt f).descOn e) ++ "\n"))) ++ "\n"))) := by
  refine ⟨rfl, rfl, ?_⟩
  intro hall
  unfold newestViewRun
  congr 1
  apply List.map_congr_left
  intro f hf
  congr 1
  have h1 : ∀ e ∈ (setFeedFlag descOpt f).items, PubTime.sentinel.le e.pubDate := by
    rw [setFeedFlag_items]
    exact hall f hf
  rw [printFeed_sentinel _ none h1, setFeedFlag_items]
  simp only [Option.getD_none, List.take_length]

/-- C7 witness: the full-inclusion conclusion at a concrete one-feed
collection with a dated and an undated item. -/
theorem c7_newest_first_run_witness :
    newestViewRun true [⟨"F", none, [⟨"a", "", ⟨2020, 1, 1, 0, 0, 0⟩, "", false⟩,
        ⟨"b", "", PubTime.sentinel, "", false⟩], false⟩] PubTime.sentinel =
      concatStrs (([⟨"F", none, [⟨"a", "", ⟨2020, 1, 1, 0, 0, 0⟩, "", false⟩,
          ⟨"b", "", PubTime.sentinel, "", false⟩], false⟩] : List Feed).map (fun f =>
        (feedHeader (setFeedFlag true f) ++
          concatStrs (f.items.map (fun e =>
            itemStr (flagEntry (setFeedFlag true f).descOn e) ++ "\n"))) ++ "\n")) :=
  (c7_newest_first_run true _).2.2 (by decide)

/-- C6: for every valid Timestamp t, parsing the string form of t yields a
Timestamp equal to t: fromString(toString(t)) == t, with toString producing
the "YYYY-MM-DD HH:MM:SS" form. -/
theorem c6_fromString_toString {t : PubTime} (h : t.validB = true) :
    timeStringToPubTime (pubTimeStr t) = some t :=
  timeString_roundtrip h

/-- C6 witness: the round-trip at the concrete time 2012-02-29 23:59:07. -/
theorem c6_fromString_toString_witness :
    timeStringToPubTime (pubTimeStr ⟨2012, 2, 29, 23, 59, 7⟩) =
      some ⟨2012, 2, 29, 23, 59, 7⟩ :=
  c6_fromString_toString (by decide)

/-- C3 counterexample: with an existing checkpoint file holding the
malformed contents "garbage", loading the checkpoint fails (the parse
exception escapes setLastSeenTime, modelled none): nothing resets the
checkpoint to the current time and the run does not continue. -/
theorem c3_corrupt_checkpoint_cex : setLastSeenTime (some "garbage") = none := by
  decide

/-- C3 amended: when the checkpoint file exists, loading crashes exactly
on contents whose parse raises (wrong number of space, hyphen or colon
separated fields, a field that int() rejects, or an invalid calendar
date): the exception propagates out of setLastSeenTime uncaught, nothing
resets the loaded checkpoint to the current time, and the run does not
continue.  Only a missing checkpoint file is recovered, to the sentinel.
Parse failure is narrower than not being a well-formed
"YYYY-MM-DD HH:MM:SS" string: int() strips surrounding whitespace and
accepts a sign, so contents with a trailing newline or a signed seconds
field are accepted and the run continues with the parsed time. -/
theorem c3_corrupt_checkpoint_propagates (s : String)
    (h : timeStringToPubTime s = none) :
    (setLastSeenTime (some s) = none ∧ setLastSeenTime none = some PubTime.sentinel) ∧
    setLastSeenTime (some "2020-01-01 00:00:01\n") = some ⟨2020, 1, 1, 0, 0, 1⟩ ∧
    setLastSeenTime (some "2020-01-01 00:00:+1") = some ⟨2020, 1, 1, 0, 0, 1⟩ :=
  ⟨⟨h, rfl⟩, by decide, by decide⟩

/-- C3 witness: the amended behavior at the concrete malformed contents
"not a date" (three space-separated fields, so the two-way unpacking
raises). -/
theorem c3_corrupt_checkpoint_propagates_witness :
    ((setLastSeenTime (some "not a date") = none ∧
      setLastSeenTime none = some PubTime.sentinel) ∧
    setLastSeenTime (some "2020-01-01 00:00:01\n") = some ⟨2020, 1, 1, 0, 0, 1⟩ ∧
    setLastSeenTime (some "2020-01-01 00:00:+1") = some ⟨2020, 1, 1, 0, 0, 1⟩) :=
  c3_corrupt_checkpoint_propagates "not a date" (by decide)

/-- C5: the normalizer is total, publishedParsed is preferred over
updatedParsed with the sentinel as last resort, and every field
independently takes its default when its source key is absent (and its
stripped or stringified source value when present). -/
theorem c5_populate_defaults (strip : String → String) (e : RawEntry) :
    ((∀ p, e.publishedParsed? = some p → (Item.populate strip e).pubDate = p) ∧
      (e.publishedParsed? = none → ∀ u, e.updatedParsed? = some u →
        (Item.populate strip e).pubDate = u) ∧
      (e.publishedParsed? = none → e.updatedParsed? = none →
        (Item.populate strip e).pubDate = PubTime.sentinel)) ∧
    (e.title? = none → (Item.populate strip e).title = "") ∧
    (∀ t, e.title? = some t → (Item.populate strip e).title = strip t) ∧
    (e.link? = none → (Item.populate strip e).url = "") ∧
    (∀ u, e.link? = some u → (Item.populate strip e).url = u) ∧
    (e.summary? = none → (Item.populate strip e).content = "") ∧
    (∀ s, e.summary? = some s → (Item.populate strip e).content = strip s) := by
  refine ⟨⟨?_, ?_, ?_⟩, ?_, ?_, ?_, ?_, ?_, ?_⟩ <;> (intros; simp_all [Item.populate])

/-- C5 witness: the fallback to updatedParsed and the title default at
concrete raw entries. -/
theorem c5_populate_defaults_witness :
    (Item.populate id ⟨none, none, none, none, some ⟨2020, 5, 1, 0, 0, 0⟩⟩).pubDate =
      ⟨2020, 5, 1, 0, 0, 0⟩ ∧
    (Item.populate id ⟨none, some "u", none, none, none⟩).title = "" :=
  ⟨(c5_populate_defaults id _).1.2.1 rfl _ rfl,
    (c5_populate_defaults id _).2.1 rfl⟩

/-- C10: a feed that parses successfully (bozo = 0) but whose genuine title
is the literal string "ERROR" is built as a marker-titled feed and then
silently excluded from the ingested collection, exactly as a failed parse
would be, because the invalid-feed marker is the in-band title value. -/
theorem c10_error_title_excluded (strip : String → String) (pd : ParserData)
    (pds : List ParserData) (hbozo : pd.bozo = false)
    (htitle : pd.feedTitle? = some "ERROR") :
    (makeFeed strip pd).title = "ERROR" ∧ ingest strip (pd :: pds) = ingest strip pds := by
  have hmf : (makeFeed strip pd).title = "ERROR" := by
    unfold makeFeed
    rw [hbozo]
    simp [htitle]
  refine ⟨hmf, ?_⟩
  unfold ingest
  rw [List.foldl_cons]
  congr 1
  show (if (makeFeed strip pd).title ≠ "ERROR" then [] ++ [makeFeed strip pd] else []) = []
  rw [hmf]
  simp

/-- C10 witness: a concrete well-formed document with real title "ERROR"
and one entry is dropped from ingestion. -/
theorem c10_error_title_excluded_witness :
    (makeFeed id ⟨false, false, some "ERROR", none,
      some [⟨some "story", none, none, none, none⟩]⟩).title = "ERROR" ∧
    ingest id [⟨false, false, some "ERROR", none,
      some [⟨some "story", none, none, none, none⟩]⟩] = ingest id [] :=
  c10_error_title_excluded id _ [] rfl rfl

theorem link_ne_published (a b : String) : ("Link: " ++ a) ≠ ("Published: " ++ b) :=
  fun h => published_ne_link b a h.symm

theorem desc_ne_published (a b : String) :
    ("Description: " ++ a) ≠ ("Published: " ++ b) :=
  fun h => published_ne_desc b a h.symm

theorem desc_ne_link (a b : String) : ("Description: " ++ a) ≠ ("Link: " ++ b) :=
  fun h => link_ne_desc b a h.symm

theorem bare_link_ne_published (b : String) : ("Link: " : String) ≠ ("Published: " ++ b) := by
  intro h
  have h2 := congrArg String.data h
  rw [String.data_append] at h2
  have hP : ("Published: " : String).data = 'P' :: ("ublished: " : String).data := rfl
  have hL : ("Link: " : String).data = 'L' :: ("ink: " : String).data := rfl
  rw [hP, hL] at h2
  simp at h2

theorem bare_link_ne_desc (b : String) : ("Link: " : String) ≠ ("Description: " ++ b) := by
  intro h
  have h2 := congrArg String.data h
  rw [String.data_append] at h2
  have hD : ("Description: " : String).data = 'D' :: ("escription: " : String).data := rfl
  have hL : ("Link: " : String).data = 'L' :: ("ink: " : String).data := rfl
  rw [hD, hL] at h2
  simp at h2

/-- C4 counterexample: the item with publication time 1000-06-15 12:00:00
(year 1000 but not the sentinel instant), empty url, empty content and the
description flag on renders a block whose optional lines are exactly one
Description line: the Published line is omitted although publishedAt is not
the sentinel, and a Description line appears although the content is
empty. -/
theorem c4_item_lines_cex :
    (⟨"t", "", ⟨1000, 6, 15, 12, 0, 0⟩, "", true⟩ : Item).pubDate ≠ PubTime.sentinel ∧
    (⟨"t", "", ⟨1000, 6, 15, 12, 0, 0⟩, "", true⟩ : Item).content = "" ∧
    itemOptLines ⟨"t", "", ⟨1000, 6, 15, 12, 0, 0⟩, "", true⟩ = ["Description: "] := by
  decide

/-- C4 amended: in the rendered per-item block the Published line appears
if and only if the year of publishedAt differs from 1000 (the code tests
only str(year), not the whole sentinel instant), the Link line if and only
if the url is nonempty, and the Description line if and only if the
showDescription flag is set, regardless of whether the content is empty. -/
theorem c4_item_block_lines (it : Item) :
    itemStr it = it.title ++ "\n----------------------" ++
      concatStrs ((itemOptLines it).map (fun l => "\n" ++ l)) ++ "\n" ∧
    (("Published: " ++ pubTimeStr it.pubDate) ∈ itemOptLines it ↔ it.pubDate.year ≠ 1000) ∧
    (("Link: " ++ it.url) ∈ itemOptLines it ↔ it.url ≠ "") ∧
    (("Description: " ++ it.content) ∈ itemOptLines it ↔ it.descOn = true) := by
  refine ⟨rfl, ?_, ?_, ?_⟩ <;>
  · unfold itemOptLines
    by_cases h1 : it.pubDate.year = 1000 <;> by_cases h2 : it.url = "" <;>
      by_cases h3 : it.descOn = true <;>
      simp [h1, h2, h3, published_ne_link, published_ne_desc, link_ne_desc,
        link_ne_published, desc_ne_published, desc_ne_link, bare_link_ne_published,
        bare_link_ne_desc]

theorem notSlashHead_iff (l : List Char) : notSlashHead l = true ↔ l.head? ≠ some '/' := by
  cases l with
  | nil => simp [notSlashHead]
  | cons c cs => simp [notSlashHead]

theorem https_prefix_iff_take (s : String) :
    List.IsPrefix ("https://" : String).data s.data ↔
      s.data.take 8 = ("https://" : String).data := by
  rw [List.prefix_iff_eq_take]
  constructor <;> intro h <;> exact h.symm

theorem http_prefix_iff_take (s : String) :
    List.IsPrefix ("http://" : String).data s.data ↔
      s.data.take 7 = ("http://" : String).data := by
  rw [List.prefix_iff_eq_take]
  constructor <;> intro h <;> exact h.symm

theorem http_https_exclusive {l : List Char}
    (h1 : List.IsPrefix ("http://" : String).data l)
    (h2 : List.IsPrefix ("https://" : String).data l) : False := by
  obtain ⟨t1, ht1⟩ := h1
  obtain ⟨t2, ht2⟩ := h2
  rw [← ht1] at ht2
  rw [show ("https://" : String).data = 'h' :: 't' :: 't' :: 'p' :: 's' :: ':' :: '/' :: '/' :: []
      from rfl,
    show ("http://" : String).data = 'h' :: 't' :: 't' :: 'p' :: ':' :: '/' :: '/' :: []
      from rfl] at ht2
  simp at ht2

theorem matchScheme_iff (s : String) : matchScheme s.data = true ↔ goodScheme s := by
  unfold matchScheme goodScheme
  by_cases h8 : s.data.take 8 = ("https://" : String).data
  · rw [if_pos h8]
    have hpre : List.IsPrefix ("https://" : String).data s.data :=
      (https_prefix_iff_take s).mpr h8
    constructor
    · intro ht
      refine Or.inr ⟨hpre, ?_⟩
      rw [← List.head?_drop]
      exact (notSlashHead_iff _).mp ht
    · intro hg
      rcases hg with ⟨hpre7, _⟩ | ⟨_, hslash⟩
      · exact absurd (http_https_exclusive hpre7 hpre) not_false
      · rw [notSlashHead_iff, List.head?_drop]
        exact hslash
  · rw [if_neg h8]
    have hnpre : ¬ List.IsPrefix ("https://" : String).data s.data :=
      fun hp => h8 ((https_prefix_iff_take s).mp hp)
    by_cases h7 : s.data.take 7 = ("http://" : String).data
    · rw [if_pos h7]
      have hpre : List.IsPrefix ("http://" : String).data s.data :=
        (http_prefix_iff_take s).mpr h7
      constructor
      · intro ht
        refine Or.inl ⟨hpre, ?_⟩
        rw [← List.head?_drop]
        exact (notSlashHead_iff _).mp ht
      · intro hg
        rcases hg with ⟨_, hslash⟩ | ⟨hpre8, _⟩
        · rw [notSlashHead_iff, List.head?_drop]
          exact hslash
        · exact absurd hpre8 hnpre
    · rw [if_neg h7]
      constructor
      · intro ht
        exact absurd ht (by simp)
      · intro hg
        rcases hg with ⟨hpre7, _⟩ | ⟨hpre8, _⟩
        · exact absurd ((http_prefix_iff_take s).mp hpre7) h7
        · exact absurd hpre8 hnpre

theorem foldl_append_eq_map {α β : Type} (g : α → β) :
    ∀ (l : List α) (acc : List β),
      l.foldl (fun a x => a ++ [g x]) acc = acc ++ l.map g := by
  intro l
  induction l with
  | nil => intro acc; simp
  | cons a l ih =>
    intro acc
    rw [List.foldl_cons, ih, List.map_cons]
    simp

/-- C8 counterexample: the url "http:///a" begins with the literal scheme
prefix http:// yet appendHTTP does not return it unchanged: the negative
lookahead of the regex rejects the third slash and the url is prefixed
again. -/
theorem c8_appendHTTP_cex :
    startsWithScheme "http:///a" ∧ appendHTTP "http:///a" ≠ "http:///a" := by
  constructor
  · exact Or.inl ⟨['/', 'a'], by decide⟩
  · decide

/-- C8 amended: reading the feed-list file yields one URL per line that is
not a lone newline (in order), each stripped and scheme-normalized; a URL
is returned unchanged exactly when it begins with http:// or https:// whose
next character, if any, is not a further slash, and http:// is prefixed
otherwise (so a URL such as "http:///x", although it begins with the
scheme literal, is prefixed again). -/
theorem c8_feed_list_normalization (lines : List String) :
    getFeedsFromFile lines =
      (lines.filter (fun l => decide (l ≠ "\n"))).map (fun l => appendHTTP (stripStr l)) ∧
    (∀ s : String, appendHTTP s = if goodScheme s then s else "http://" ++ s) := by
  constructor
  · unfold getFeedsFromFile
    rw [foldl_append_eq_map, List.nil_append, List.map_map]
    simp only [Function.comp_def]
  · intro s
    unfold appendHTTP
    by_cases hg : goodScheme s
    · rw [if_pos ((matchScheme_iff s).mpr hg), if_pos hg]
    · rw [if_neg (fun ht => hg ((matchScheme_iff s).mp ht)), if_neg hg]

/-- C1 counterexample: two items with the same publication instant appear
in the date view in reversed relative input order (the ascending stable
sort is followed by an in-place reverse, which also reverses ties), so the
view is not stable in the claimed sense. -/
theorem c1_dateView_cex :
    dateViewList [⟨"F", none,
        [⟨"a", "", ⟨2020, 1, 1, 0, 0, 0⟩, "", false⟩,
          ⟨"b", "", ⟨2020, 1, 1, 0, 0, 0⟩, "", false⟩], false⟩] =
      [⟨"b", "", ⟨2020, 1, 1, 0, 0, 0⟩, "", false⟩,
        ⟨"a", "", ⟨2020, 1, 1, 0, 0, 0⟩, "", false⟩] ∧
    (⟨"a", "", ⟨2020, 1, 1, 0, 0, 0⟩, "", false⟩ : Item) ≠
      ⟨"b", "", ⟨2020, 1, 1, 0, 0, 0⟩, "", false⟩ := by
  decide

/-- C1 amended: the date view flattens all items across all feeds, prints
exactly the items whose publishedAt differs from the sentinel, sorted
descending by instant; items with equal instants appear in reversed
relative input order (ascending stable sort followed by reverse), not in
input order. -/
theorem c1_dateView_order (feeds : List Feed) :
    (dateViewList feeds).Pairwise (fun a b => b.pubDate.le a.pubDate) ∧
    (dateViewList feeds).Perm ((feeds.flatMap Feed.items).filter
      (fun e => decide (e.pubDate ≠ PubTime.sentinel))) ∧
    (∀ x y : Item, List.Sublist [x, y] (feeds.flatMap Feed.items) →
      x.pubDate = y.pubDate → x.pubDate ≠ PubTime.sentinel →
      List.Sublist [y, x] (dateViewList feeds)) := by
  refine ⟨?_, ?_, ?_⟩
  · unfold dateViewList
    apply List.Pairwise.filter
    rw [List.pairwise_reverse]
    exact List.sorted_insertionSort itemLe (feeds.flatMap Feed.items)
  · unfold dateViewList
    apply List.Perm.filter
    exact (List.reverse_perm _).trans (List.perm_insertionSort itemLe _)
  · intro x y hsub hxy hxs
    unfold dateViewList
    have hab : itemLe x y := by
      unfold itemLe
      rw [hxy]
      exact pubLe_refl _
    have h1 := List.pair_sublist_insertionSort hab hsub
    have h2 := h1.reverse
    have h3 := h2.filter (fun e => decide (e.pubDate ≠ PubTime.sentinel))
    have hfx : decide (x.pubDate ≠ PubTime.sentinel) = true := decide_eq_true hxs
    have hfy : decide (y.pubDate ≠ PubTime.sentinel) = true :=
      decide_eq_true (hxy ▸ hxs)
    simpa [List.filter, hfx, hfy] using h3

/-- C1 witness: the tie-reversal conclusion at a concrete feed holding two
items with equal instants. -/
theorem c1_dateView_order_witness :
    List.Sublist
      [(⟨"y", "u2", ⟨2021, 3, 4, 5, 6, 7⟩, "", false⟩ : Item),
        ⟨"x", "u1", ⟨2021, 3, 4, 5, 6, 7⟩, "", false⟩]
      (dateViewList [⟨"G", none,
        [⟨"x", "u1", ⟨2021, 3, 4, 5, 6, 7⟩, "", false⟩,
          ⟨"y", "u2", ⟨2021, 3, 4, 5, 6, 7⟩, "", false⟩], false⟩]) :=
  (c1_dateView_order _).2.2 _ _ (by decide) (by decide) (by decide)

theorem eraseFlags_setFeedFlag (b : Bool) (f : Feed) :
    eraseFlags (setFeedFlag b f) = eraseFlags f := by
  unfold setFeedFlag
  split <;> rfl

theorem eraseItem_flagEntry (b : Bool) (e : Item) :
    ({ flagEntry b e with descOn := false } : Item) = { e with descOn := false } := by
  unfold flagEntry
  split <;> rfl

theorem eraseItem_setItemFlag (b : Bool) (e : Item) :
    ({ setItemFlag b e with descOn := false } : Item) = { e with descOn := false } := by
  unfold setItemFlag
  split <;> rfl

theorem eraseFlags_printFeedState (f : Feed) (n : Option Nat) :
    eraseFlags (printFeedState f n) = eraseFlags f := by
  unfold eraseFlags printFeedState
  simp only [List.map_append, List.map_map, Function.comp_def, eraseItem_flagEntry]
  rw [← List.map_append, List.take_append_drop]

theorem runView_eraseFlags (descOpt : Bool) (c : ViewCmd) (fs : List Feed) :
    (runView descOpt c fs).map eraseFlags = fs.map eraseFlags := by
  cases c with
  | date =>
    simp only [runView, List.map_map, Function.comp_def]
    apply List.map_congr_left
    intro f _
    unfold eraseFlags
    simp only [List.map_map, Function.comp_def, eraseItem_setItemFlag]
  | alpha =>
    simp only [runView, List.map_map, Function.comp_def, eraseFlags_printFeedState,
      eraseFlags_setFeedFlag]
  | num n =>
    simp only [runView, List.map_map, Function.comp_def, eraseFlags_printFeedState,
      eraseFlags_setFeedFlag]
  | since y mo d =>
    simp only [runView, List.map_map, Function.comp_def, eraseFlags_printFeedState,
      eraseFlags_setFeedFlag]
  | newest =>
    simp only [runView, List.map_map, Function.comp_def, eraseFlags_printFeedState,
      eraseFlags_setFeedFlag]
  | titleSearch p =>
    simp only [runView, List.map_map, Function.comp_def]
    apply List.map_congr_left
    intro f _
    unfold eraseFlags
    simp only [List.map_map, Function.comp_def]
    congr 1
    apply List.map_congr_left
    intro e _
    by_cases hp : p e.title
    · simp [hp, eraseItem_setItemFlag]
    · simp [hp]
  | defaultView =>
    simp only [runView, List.map_map, Function.comp_def, eraseFlags_printFeedState,
      eraseFlags_setFeedFlag]

/-- C9: running any sequence of view passes leaves the stored feed
collection unchanged up to the transient showDescription flags: feed order,
titles, publication times, item order and item contents are preserved, the
only possible change being descOn flags, because each view works from a
copy of the feeds list and fresh temporary item lists. -/
theorem c9_views_preserve_feeds (descOpt : Bool) (cmds : List ViewCmd) (feeds : List Feed) :
    (runViews descOpt cmds feeds).map eraseFlags = feeds.map eraseFlags := by
  induction cmds generalizing feeds with
  | nil => rfl
  | cons c cs ih =>
    unfold runViews at *
    rw [List.foldl_cons, ih (runView descOpt c feeds), runView_eraseFlags]

end FeedReader
